import Mathlib

/-!
# Heartbox offline-first inventory: local store, pending queue, sync engine

Shallow embedding of the core of the Heartbox repository:

* `src/frontend/src/types/index.ts` — the entity types,
* `src/frontend/src/services/db.ts` — the IndexedDB-backed durable store
  (`saveItem`, `deleteItem`, `saveTransaction`, the pending-operation queue),
* `src/frontend/src/services/sync.ts` — the synchronization engine
  (`performSync`, `pushOperation`, `pullLatestData`),
* `src/backend/src/index.ts` — the remote authority handlers
  (`createTransaction`, `syncData`) over the D1/SQLite schema of
  `migrations/001_init.sql` and `002_remove_fk_constraints.sql`.

Modelling conventions:

* IndexedDB object stores are association lists keyed by the store's
  `keyPath` (`id`).  Keys in an object store are unique; `db.put` is an
  upsert (replace the record at the key, or append), `db.delete` removes
  the record at the key, `db.get` is lookup.
* `crypto.randomUUID()` always returns a fresh identifier.  The model
  draws pending-operation ids from a counter (`uuidCounter`) carried in
  the state; freshness is the invariant that every stored id is below
  the counter.
* `new Date().toISOString()` is a clock read.  ISO-8601 strings compare
  lexicographically consistently with time, so timestamps are modelled
  as naturals drawn from a strictly increasing clock carried in the
  state; every read returns the current clock value and advances it.
* JavaScript numbers holding item/transaction quantities are modelled
  as `Int` (the spec range is integral; `Math.max` is `max`).
* `fetch` outcomes are an oracle (`RemoteEnv`): a request either
  resolves with an ok response, resolves with a non-2xx response, or
  rejects (network error).
-/

namespace Heartbox

/-! ## Entity types (src/frontend/src/types/index.ts) -/

inductive SyncStatus
  | synced
  | pending
  | failed
deriving DecidableEq, Repr

/-- `TransactionType = 'in' | 'out'`.  `in` is a reserved word in Lean,
so the constructors are `tin` / `tout`. -/
inductive TransactionType
  | tin
  | tout
deriving DecidableEq, Repr

structure DonationItem where
  id : String
  barcode : String
  name : String
  category : String
  quantity : Int
  unit : String
  condition : String
  expiryDate : Option String
  minStock : Int
  location : String
  notes : Option String
  imageUrl : Option String
  organizationId : String
  createdAt : Nat
  updatedAt : Nat
  syncStatus : SyncStatus
deriving DecidableEq, Repr

structure Transaction where
  id : String
  itemId : String
  type : TransactionType
  quantity : Int
  reason : String
  recipientInfo : Option String
  performedBy : String
  performedAt : Nat
  notes : Option String
  organizationId : String
  syncStatus : SyncStatus
deriving DecidableEq, Repr

/-- `PendingOperation.type : 'create' | 'update' | 'delete'`. -/
inductive OpType
  | create
  | update
  | delete
deriving DecidableEq, Repr

/-- `PendingOperation.entity : 'item' | 'transaction'`. -/
inductive OpEntity
  | item
  | transaction
deriving DecidableEq, Repr

/-- `PendingOperation.data : DonationItem | Transaction`. -/
inductive OpData
  | item (i : DonationItem)
  | transaction (t : Transaction)
deriving DecidableEq, Repr

/-- A queued, not-yet-replicated local mutation.  The `id` is a
`crypto.randomUUID()` value, modelled as an opaque fresh natural. -/
structure PendingOperation where
  id : Nat
  type : OpType
  entity : OpEntity
  data : OpData
  timestamp : Nat
  retryCount : Nat
deriving DecidableEq, Repr

structure AppSettings where
  language : String
  theme : String
  lowStockAlertEnabled : Bool
  autoSync : Bool
  lastSyncAt : Option Nat
  currentOrganizationId : Option String
deriving DecidableEq, Repr

/-! ## Keyed object-store primitives (the `idb` layer used by db.ts) -/

/-- `db.put`: upsert by key — replace the record at the key if present,
otherwise append. -/
def putByKey {α κ : Type} [DecidableEq κ] (key : α → κ) : List α → α → List α
  | [], v => [v]
  | x :: xs, v => if key x = key v then v :: xs else x :: putByKey key xs v

/-- `db.get`: point lookup by key. -/
def getByKey {α κ : Type} [DecidableEq κ] (key : α → κ) : List α → κ → Option α
  | [], _ => none
  | x :: xs, k => if key x = k then some x else getByKey key xs k

/-- `db.delete`: remove the record stored at the key. -/
def deleteByKey {α κ : Type} [DecidableEq κ] (key : α → κ) : List α → κ → List α
  | [], _ => []
  | x :: xs, k => if key x = k then deleteByKey key xs k else x :: deleteByKey key xs k

/-! ## Local database state (the five stores of db.ts, minus the
organization store — organization CRUD is online-only and not involved
in any queue/sync path).  `clock` and `uuidCounter` model
`new Date().toISOString()` and `crypto.randomUUID()` (see the header). -/

structure DBState where
  items : List DonationItem
  transactions : List Transaction
  pendingOperations : List PendingOperation
  settings : Option AppSettings
  clock : Nat
  uuidCounter : Nat
deriving DecidableEq, Repr

/-! ## db.ts operations -/

/-- `getItemById` (db.ts): `db.get('items', id)`. -/
def getItemById (st : DBState) (id : String) : Option DonationItem :=
  getByKey DonationItem.id st.items id

/-- `getTransactionById`: `db.get('transactions', id)` (used to state
persistence of a saved transaction). -/
def getTransactionById (st : DBState) (id : String) : Option Transaction :=
  getByKey Transaction.id st.transactions id

/-- `addPendingOperation` (db.ts): `db.put('pendingOperations', operation)`. -/
def addPendingOperation (st : DBState) (operation : PendingOperation) : DBState :=
  { st with pendingOperations := putByKey PendingOperation.id st.pendingOperations operation }

/-- `removePendingOperation` (db.ts): `db.delete('pendingOperations', id)`. -/
def removePendingOperation (st : DBState) (id : Nat) : DBState :=
  { st with pendingOperations := deleteByKey PendingOperation.id st.pendingOperations id }

/-- `saveItem` (db.ts): read the existing record, upsert the item with a
fresh `updatedAt` and `syncStatus := 'pending'`, and (when `addToPending`,
which defaults to `true` in the source) enqueue a pending operation whose
kind is `update` when the item already existed and `create` otherwise,
carrying the *argument* item as payload. -/
def saveItem (st : DBState) (item : DonationItem) (addToPending : Bool) : DBState :=
  let existingItem := getByKey DonationItem.id st.items item.id
  let st1 := { st with
    items := putByKey DonationItem.id st.items
      { item with updatedAt := st.clock, syncStatus := SyncStatus.pending },
    clock := st.clock + 1 }
  if addToPending then
    let op : PendingOperation := {
      id := st1.uuidCounter,
      type := if existingItem.isSome then OpType.update else OpType.create,
      entity := OpEntity.item,
      data := OpData.item item,
      timestamp := st1.clock,
      retryCount := 0 }
    addPendingOperation
      { st1 with clock := st1.clock + 1, uuidCounter := st1.uuidCounter + 1 } op
  else st1

/-- `deleteItem` (db.ts): look the item up; when present, delete it and
enqueue a `delete` pending operation carrying the pre-delete snapshot;
when absent, do nothing. -/
def deleteItem (st : DBState) (id : String) : DBState :=
  match getByKey DonationItem.id st.items id with
  | some item =>
      let st1 := { st with items := deleteByKey DonationItem.id st.items id }
      let op : PendingOperation := {
        id := st1.uuidCounter,
        type := OpType.delete,
        entity := OpEntity.item,
        data := OpData.item item,
        timestamp := st1.clock,
        retryCount := 0 }
      addPendingOperation
        { st1 with clock := st1.clock + 1, uuidCounter := st1.uuidCounter + 1 } op
  | none => st

/-- `saveTransaction` (db.ts): persist the transaction with
`syncStatus := 'pending'`; if the referenced item exists, recompute its
quantity (`in` adds, `out` subtracts, result clamped by
`Math.max(0, newQuantity)`) and re-persist it through `saveItem` (with
`addToPending` defaulted to `true`); finally enqueue a `create` pending
operation for the transaction itself. -/
def saveTransaction (st : DBState) (transaction : Transaction) : DBState :=
  let st1 := { st with
    transactions := putByKey Transaction.id st.transactions
      { transaction with syncStatus := SyncStatus.pending } }
  let st2 :=
    match getItemById st1 transaction.itemId with
    | some item =>
        let newQuantity :=
          if transaction.type = TransactionType.tin then item.quantity + transaction.quantity
          else item.quantity - transaction.quantity
        saveItem st1 { item with quantity := max 0 newQuantity } true
    | none => st1
  let op : PendingOperation := {
    id := st2.uuidCounter,
    type := OpType.create,
    entity := OpEntity.transaction,
    data := OpData.transaction transaction,
    timestamp := st2.clock,
    retryCount := 0 }
  addPendingOperation
    { st2 with clock := st2.clock + 1, uuidCounter := st2.uuidCounter + 1 } op

/-- Insertion step of the `by-timestamp` index order. -/
def insertByTimestamp (op : PendingOperation) :
    List PendingOperation → List PendingOperation
  | [] => [op]
  | x :: xs =>
      if op.timestamp ≤ x.timestamp then op :: x :: xs
      else x :: insertByTimestamp op xs

/-- The `by-timestamp` index enumeration: records ordered by timestamp key
ascending (insertion sort; under the queue invariant all timestamps are
distinct, so this is exactly the IndexedDB index order). -/
def sortByTimestamp (l : List PendingOperation) : List PendingOperation :=
  l.foldr insertByTimestamp []

/-- `getPendingOperations` (db.ts):
`db.getAllFromIndex('pendingOperations', 'by-timestamp')`. -/
def getPendingOperations (st : DBState) : List PendingOperation :=
  sortByTimestamp st.pendingOperations

/-- `bulkSaveItems` (db.ts): upsert every pulled item with
`syncStatus := 'synced'`. -/
def bulkSaveItems (st : DBState) (items : List DonationItem) : DBState :=
  { st with
    items := items.foldl
      (fun acc item => putByKey DonationItem.id acc { item with syncStatus := SyncStatus.synced })
      st.items }

/-- `bulkSaveTransactions` (db.ts): upsert every pulled transaction with
`syncStatus := 'synced'`. -/
def bulkSaveTransactions (st : DBState) (transactions : List Transaction) : DBState :=
  { st with
    transactions := transactions.foldl
      (fun acc t => putByKey Transaction.id acc { t with syncStatus := SyncStatus.synced })
      st.transactions }

/-- `DEFAULT_SETTINGS` (db.ts). -/
def DEFAULT_SETTINGS : AppSettings := {
  language := "en",
  theme := "system",
  lowStockAlertEnabled := true,
  autoSync := true,
  lastSyncAt := none,
  currentOrganizationId := none }

/-- `getSettings` (db.ts): the singleton settings record, defaulted. -/
def getSettings (st : DBState) : AppSettings :=
  st.settings.getD DEFAULT_SETTINGS

/-- `saveSettings({ lastSyncAt: new Date().toISOString() })` (db.ts via
sync.ts): merge the partial update into the current settings. -/
def saveSettingsLastSync (st : DBState) : DBState :=
  { st with
    settings := some { getSettings st with lastSyncAt := some st.clock },
    clock := st.clock + 1 }

/-! ## sync.ts: the synchronization engine

The network is an oracle: `pushOk op` says whether the single
`fetch` issued by `pushOperation op` resolves with a 2xx response
(a non-2xx response and a network rejection both make `pushOperation`
throw, so one boolean captures the control flow); `itemsPull` /
`txPull` are the outcomes of the two `fetch` calls of
`pullLatestData`, where an ok response carries the decoded payload. -/

/-- Outcome of a `fetch` in `pullLatestData`: resolves ok (with payload),
resolves non-2xx, or rejects (network error). -/
inductive FetchResult (α : Type)
  | ok (payload : α)
  | notOk
  | netErr
deriving DecidableEq, Repr

structure RemoteEnv where
  online : Bool
  pushOk : PendingOperation → Bool
  itemsPull : FetchResult (List DonationItem)
  txPull : FetchResult (List Transaction)

/-- `SyncResult` (sync.ts). -/
structure SyncResult where
  success : Bool
  synced : Nat
  failed : Nat
  errors : List String
deriving DecidableEq, Repr

/-- Observable steps of a sync cycle, in execution order: one remote
request per drained pending operation, the two pull fetches, and the
final `saveSettings` write of `lastSyncAt`. -/
inductive SyncEvent
  | push (op : PendingOperation)
  | pullItems
  | pullTransactions
  | saveLastSync
deriving DecidableEq, Repr

def SyncEvent.isPush : SyncEvent → Bool
  | SyncEvent.push _ => true
  | _ => false

def SyncEvent.isPull : SyncEvent → Bool
  | SyncEvent.pullItems => true
  | SyncEvent.pullTransactions => true
  | _ => false

/-- The error string pushed by `performSync`'s per-operation catch
(the interpolated exception text is elided). -/
def pushErrorMsg (op : PendingOperation) : String :=
  "Failed to sync " ++ (match op.entity with
    | OpEntity.item => "item"
    | OpEntity.transaction => "transaction")

/-- The `for (const operation of pending)` loop of `performSync`:
attempt `pushOperation`; on success remove the entry from the queue and
count it synced; on failure (non-2xx or network error) leave the entry
queued, count it failed and record an error — then continue with the
next entry either way. -/
def drainLoop (env : RemoteEnv) :
    List PendingOperation → DBState → SyncResult →
    DBState × SyncResult × List SyncEvent
  | [], st, r => (st, r, [])
  | op :: rest, st, r =>
      if env.pushOk op then
        let st' := removePendingOperation st op.id
        let out := drainLoop env rest st' { r with synced := r.synced + 1 }
        (out.1, out.2.1, SyncEvent.push op :: out.2.2)
      else
        let out := drainLoop env rest st
          { r with failed := r.failed + 1, errors := r.errors ++ [pushErrorMsg op] }
        (out.1, out.2.1, SyncEvent.push op :: out.2.2)

/-- Second half of `pullLatestData`: the transactions fetch (reached
only when the items fetch did not reject). -/
def pullTxPhase (env : RemoteEnv) (st : DBState) : DBState × List SyncEvent :=
  match env.txPull with
  | FetchResult.ok txs => (bulkSaveTransactions st txs, [SyncEvent.pullTransactions])
  | FetchResult.notOk => (st, [SyncEvent.pullTransactions])
  | FetchResult.netErr => (st, [SyncEvent.pullTransactions])

/-- `pullLatestData` (sync.ts): fetch `/items` (on ok, `bulkSaveItems`),
then fetch `/transactions?limit=100` (on ok, `bulkSaveTransactions`).
Both fetches sit inside one `try`: a rejection of the items fetch skips
the transactions fetch; every error is caught and swallowed, so
`pullLatestData` never throws. -/
def pullLatestData (env : RemoteEnv) (st : DBState) : DBState × List SyncEvent :=
  match env.itemsPull with
  | FetchResult.ok items =>
      let out := pullTxPhase env (bulkSaveItems st items)
      (out.1, SyncEvent.pullItems :: out.2)
  | FetchResult.notOk =>
      let out := pullTxPhase env st
      (out.1, SyncEvent.pullItems :: out.2)
  | FetchResult.netErr => (st, [SyncEvent.pullItems])

/-- `performSync` (sync.ts): offline guard, then (1) drain the pending
queue in `by-timestamp` order, (2) pull the remote snapshot,
(3) record `lastSyncAt`; `success` is `failed === 0`. -/
def performSync (env : RemoteEnv) (st : DBState) :
    SyncResult × DBState × List SyncEvent :=
  if env.online then
    let pending := getPendingOperations st
    let init : SyncResult := { success := true, synced := 0, failed := 0, errors := [] }
    let dres := drainLoop env pending st init
    let pres := pullLatestData env dres.1
    let st3 := saveSettingsLastSync pres.1
    ({ dres.2.1 with success := dres.2.1.failed == 0 }, st3,
      dres.2.2 ++ pres.2 ++ [SyncEvent.saveLastSync])
  else
    ({ success := false, synced := 0, failed := 0, errors := ["Device is offline"] }, st, [])

/-- The `SyncResult` returned by a sync cycle. -/
def performSyncResult (env : RemoteEnv) (st : DBState) : SyncResult :=
  (performSync env st).1

/-- The local database state after a sync cycle. -/
def performSyncState (env : RemoteEnv) (st : DBState) : DBState :=
  (performSync env st).2.1

/-- The observable event trace of a sync cycle. -/
def syncEvents (env : RemoteEnv) (st : DBState) : List SyncEvent :=
  (performSync env st).2.2

/-! ## Backend (src/backend/src/index.ts): the remote authority

Rows mirror the columns of `migrations/001_init.sql` (after
`002_remove_fk_constraints.sql` dropped the foreign keys and
`005_organizations.sql` added the nullable `organization_id`).
`transactions.id` and `items.id` are `TEXT PRIMARY KEY`.  Remote
timestamps are clock reads as on the frontend. -/

structure ItemRow where
  id : String
  barcode : String
  name : String
  category : String
  quantity : Int
  unit : String
  condition : String
  expiryDate : Option String
  minStock : Int
  location : String
  notes : Option String
  imageUrl : Option String
  organizationId : Option String
  createdAt : Nat
  updatedAt : Nat
deriving DecidableEq, Repr

structure TxRow where
  id : String
  itemId : String
  type : TransactionType
  quantity : Int
  reason : String
  recipientInfo : Option String
  performedBy : String
  performedAt : Nat
  notes : Option String
  organizationId : Option String
deriving DecidableEq, Repr

structure RemoteDB where
  items : List ItemRow
  transactions : List TxRow
  clock : Nat
deriving DecidableEq, Repr

/-- Request body of `POST /api/transactions` (`createTransaction`).
The columns declared `NOT NULL` with a `CHECK` satisfied by the type
are required fields; `recipient_info`, `performed_at` and `notes` use
the handler's `|| now` / `|| null` fallbacks. -/
structure TxBody where
  id : String
  itemId : String
  type : TransactionType
  quantity : Int
  reason : String
  recipientInfo : Option String
  performedBy : String
  performedAt : Option Nat
  notes : Option String
  organizationId : Option String
deriving DecidableEq, Repr

/-- The `UPDATE items SET quantity = ... WHERE id = ?` statement shared
by `createTransaction` and `syncData`: `in` adds the quantity, `out`
sets `MAX(0, quantity - ?)`; a missing item id updates no row. -/
def updateItemQuantity (ty : TransactionType) (q : Int) (now : Nat)
    (items : List ItemRow) (itemId : String) : List ItemRow :=
  items.map fun it =>
    if it.id = itemId then
      { it with
        quantity := if ty = TransactionType.tin then it.quantity + q else max 0 (it.quantity - q),
        updatedAt := now }
    else it

/-- `createTransaction` (backend): one D1 `batch` holding the `INSERT`
of the transaction row and the quantity `UPDATE`.  A D1 batch runs as a
single SQLite transaction: when the `INSERT` violates the primary key
on `transactions.id` the whole batch is rolled back and the worker's
outer catch returns status 500; otherwise the handler returns 201. -/
def createTransaction (db : RemoteDB) (body : TxBody) : RemoteDB × Nat :=
  let now := db.clock
  let organizationId := some (body.organizationId.getD "default")
  if db.transactions.any (fun t => t.id = body.id) then
    ({ db with clock := now + 1 }, 500)
  else
    let row : TxRow := {
      id := body.id,
      itemId := body.itemId,
      type := body.type,
      quantity := body.quantity,
      reason := body.reason,
      recipientInfo := body.recipientInfo,
      performedBy := body.performedBy,
      performedAt := body.performedAt.getD now,
      notes := body.notes,
      organizationId := organizationId }
    ({ db with
        transactions := db.transactions ++ [row],
        items := updateItemQuantity body.type body.quantity now db.items body.itemId,
        clock := now + 1 }, 201)

/-- One entry of `body.transactions` in `syncData` (no organization
field: the bulk insert writes nine columns, leaving
`organization_id` NULL). -/
structure SyncTxBody where
  id : String
  itemId : String
  type : TransactionType
  quantity : Int
  reason : String
  recipientInfo : Option String
  performedBy : String
  performedAt : Nat
  notes : Option String
deriving DecidableEq, Repr

/-- The transactions loop of `syncData` (backend): for each entry,
skip it when a transaction with the same id already exists; otherwise
atomically insert the row and apply the quantity update, counting it
synced.  Returns the new state and `transactionsSynced`. -/
def syncDataTransactions (db : RemoteDB) : List SyncTxBody → RemoteDB × Nat
  | [] => (db, 0)
  | tx :: rest =>
      if db.transactions.any (fun t => t.id = tx.id) then
        syncDataTransactions db rest
      else
        let now := db.clock
        let row : TxRow := {
          id := tx.id,
          itemId := tx.itemId,
          type := tx.type,
          quantity := tx.quantity,
          reason := tx.reason,
          recipientInfo := tx.recipientInfo,
          performedBy := tx.performedBy,
          performedAt := tx.performedAt,
          notes := tx.notes,
          organizationId := none }
        let db' : RemoteDB := {
          items := updateItemQuantity tx.type tx.quantity now db.items tx.itemId,
          transactions := db.transactions ++ [row],
          clock := now + 1 }
        let out := syncDataTransactions db' rest
        (out.1, out.2 + 1)

/-- `succeededIn env l op`: some attempt in the drained list `l` targeted
`op`'s queue entry (same id) and was acknowledged by the remote. -/
def succeededIn (env : RemoteEnv) (l : List PendingOperation)
    (op : PendingOperation) : Bool :=
  l.any fun x => decide (x.id = op.id) && env.pushOk x

def queuePairwise : List PendingOperation → Bool
  | [] => true
  | x :: xs =>
      (xs.all fun y => decide (x.timestamp < y.timestamp) && decide (¬ x.id = y.id)) &&
      queuePairwise xs

def queueWF (st : DBState) : Bool :=
  queuePairwise st.pendingOperations &&
  st.pendingOperations.all
    (fun o => decide (o.timestamp < st.clock) && decide (o.id < st.uuidCounter))

/-- The per-transaction quantity step exactly as the specification words
it: an `in` transaction of quantity `q` increases the item quantity by
`q`; an `out` transaction of quantity `q` sets it to
`max(0, current - q)` — the clamp is applied after every step, not only
at the end. -/
def clampStep (q : Int) (t : Transaction) : Int :=
  match t.type with
  | TransactionType.tin => q + t.quantity
  | TransactionType.tout => max 0 (q - t.quantity)

/-! ## Witness fixtures (concrete states used by witness and
counterexample theorems) -/

def itemW : DonationItem := {
  id := "item-1", barcode := "4006381333931", name := "Diapers size M",
  category := "diapers", quantity := 10, unit := "packs", condition := "new",
  expiryDate := none, minStock := 2, location := "Shelf A-1", notes := none,
  imageUrl := none, organizationId := "default", createdAt := 0, updatedAt := 0,
  syncStatus := SyncStatus.synced }

def txOut5 : Transaction := {
  id := "tx-1", itemId := "item-1", type := TransactionType.tout, quantity := 5,
  reason := "distribution", recipientInfo := none, performedBy := "user-1",
  performedAt := 0, notes := none, organizationId := "default",
  syncStatus := SyncStatus.pending }

def txOut20 : Transaction := { txOut5 with id := "tx-2", quantity := 20 }

def txIn7 : Transaction := { txOut5 with
  id := "tx-3", type := TransactionType.tin, quantity := 7 }

def txGhost : Transaction := { txOut5 with id := "tx-9", itemId := "ghost" }

def stW : DBState := {
  items := [itemW], transactions := [], pendingOperations := [],
  settings := none, clock := 1, uuidCounter := 0 }

def opW : PendingOperation := {
  id := 0, type := OpType.create, entity := OpEntity.transaction,
  data := OpData.transaction txOut5, timestamp := 0, retryCount := 0 }

def opW1 : PendingOperation := { opW with
  id := 1, timestamp := 1, type := OpType.update,
  entity := OpEntity.item, data := OpData.item itemW }

def opW2 : PendingOperation := { opW with id := 2, timestamp := 2 }

def stQ : DBState := { stW with pendingOperations := [opW], uuidCounter := 1 }

def stQ3 : DBState := { stW with
  pendingOperations := [opW, opW1, opW2], clock := 3, uuidCounter := 3 }

def envAllFail : RemoteEnv := {
  online := true, pushOk := fun _ => false,
  itemsPull := FetchResult.netErr, txPull := FetchResult.netErr }

def envAllOk : RemoteEnv := {
  online := true, pushOk := fun _ => true,
  itemsPull := FetchResult.ok [], txPull := FetchResult.ok [] }

def envMidFail : RemoteEnv := { envAllOk with pushOk := fun op => !(op.id == 1) }

def rowItemW : ItemRow := {
  id := "item-1", barcode := "4006381333931", name := "Diapers size M",
  category := "diapers", quantity := 10, unit := "packs", condition := "new",
  expiryDate := none, minStock := 2, location := "Shelf A-1", notes := none,
  imageUrl := none, organizationId := some "default", createdAt := 0, updatedAt := 0 }

def dbW : RemoteDB := { items := [rowItemW], transactions := [], clock := 0 }

def bodyW : TxBody := {
  id := "tx-1", itemId := "item-1", type := TransactionType.tout, quantity := 5,
  reason := "distribution", recipientInfo := none, performedBy := "user-1",
  performedAt := some 0, notes := none, organizationId := some "default" }

def stxW : SyncTxBody := {
  id := "tx-1", itemId := "item-1", type := TransactionType.tout, quantity := 5,
  reason := "distribution", recipientInfo := none, performedBy := "user-1",
  performedAt := 0, notes := none }

/-! ## Queue well-formedness

Reachable states keep the pending queue an append-only log: list order
is enqueue order, timestamps are strictly increasing along it (each
enqueue reads a fresh, strictly later clock value), every stored
timestamp is below the clock and every stored id below the uuid
counter (ids are drawn fresh from the counter). -/

theorem queuePairwise_iff (l : List PendingOperation) :
    queuePairwise l = true ↔
      List.Pairwise (fun a b => a.timestamp < b.timestamp ∧ ¬ a.id = b.id) l := by
  induction l with
  | nil => simp [queuePairwise]
  | cons x xs ih =>
      simp [queuePairwise, List.pairwise_cons, ih, List.all_eq_true, Bool.and_eq_true,
        decide_eq_true_eq, and_comm]

theorem queueWF_pairwise {st : DBState} (h : queueWF st = true) :
    List.Pairwise (fun a b => a.timestamp < b.timestamp ∧ ¬ a.id = b.id)
      st.pendingOperations := by
  have h' := h
  unfold queueWF at h'
  rw [Bool.and_eq_true] at h'
  exact (queuePairwise_iff st.pendingOperations).mp h'.1

theorem queueWF_bounds {st : DBState} (h : queueWF st = true) :
    ∀ o ∈ st.pendingOperations, o.timestamp < st.clock ∧ o.id < st.uuidCounter := by
  have h' := h
  unfold queueWF at h'
  rw [Bool.and_eq_true] at h'
  intro o ho
  have := (List.all_eq_true.mp h'.2) o ho
  rw [Bool.and_eq_true, decide_eq_true_eq, decide_eq_true_eq] at this
  exact this

/-! ## Store-primitive lemmas -/

theorem getByKey_putByKey_self {α κ : Type} [DecidableEq κ] (key : α → κ)
    (l : List α) (v : α) :
    getByKey key (putByKey key l v) (key v) = some v := by
  induction l with
  | nil => simp [putByKey, getByKey]
  | cons x xs ih =>
      by_cases h : key x = key v
      · simp [putByKey, getByKey, h]
      · simp [putByKey, getByKey, h, ih]

theorem putByKey_of_fresh {α κ : Type} [DecidableEq κ] (key : α → κ)
    (l : List α) (v : α) (h : ∀ x ∈ l, ¬ key x = key v) :
    putByKey key l v = l ++ [v] := by
  induction l with
  | nil => rfl
  | cons x xs ih =>
      have hx : ¬ key x = key v := h x (List.mem_cons_self x xs)
      simp only [putByKey, if_neg hx, List.cons_append]
      rw [ih fun y hy => h y (List.mem_cons_of_mem x hy)]

theorem deleteByKey_eq_filter {α κ : Type} [DecidableEq κ] (key : α → κ)
    (l : List α) (k : κ) :
    deleteByKey key l k = l.filter (fun x => decide (¬ key x = k)) := by
  induction l with
  | nil => rfl
  | cons x xs ih =>
      by_cases h : key x = k
      · simp [deleteByKey, h, ih, List.filter]
      · simp [deleteByKey, h, ih, List.filter]

/-! ## Sorting lemmas: under the queue invariant, the `by-timestamp`
index enumerates the queue in its stored (enqueue) order. -/

theorem insertByTimestamp_of_lt (op : PendingOperation) (l : List PendingOperation)
    (h : ∀ y ∈ l, op.timestamp < y.timestamp) :
    insertByTimestamp op l = op :: l := by
  cases l with
  | nil => rfl
  | cons x xs =>
      have hx : op.timestamp ≤ x.timestamp :=
        le_of_lt (h x (List.mem_cons_self x xs))
      simp [insertByTimestamp, hx]

theorem sortByTimestamp_of_pairwise (l : List PendingOperation)
    (h : List.Pairwise (fun a b => a.timestamp < b.timestamp) l) :
    sortByTimestamp l = l := by
  induction l with
  | nil => rfl
  | cons x xs ih =>
      rw [List.pairwise_cons] at h
      have hsort : sortByTimestamp xs = xs := ih h.2
      show insertByTimestamp x (sortByTimestamp xs) = x :: xs
      rw [hsort]
      exact insertByTimestamp_of_lt x xs h.1

theorem insertByTimestamp_perm (op : PendingOperation) (l : List PendingOperation) :
    List.Perm (insertByTimestamp op l) (op :: l) := by
  induction l with
  | nil => exact List.Perm.refl _
  | cons x xs ih =>
      by_cases h : op.timestamp ≤ x.timestamp
      · simp [insertByTimestamp, h]
      · simp only [insertByTimestamp, if_neg h]
        exact (ih.cons x).trans (List.Perm.swap op x xs)

theorem sortByTimestamp_perm (l : List PendingOperation) :
    List.Perm (sortByTimestamp l) l := by
  induction l with
  | nil => exact List.Perm.refl _
  | cons x xs ih =>
      exact (insertByTimestamp_perm x (sortByTimestamp xs)).trans (ih.cons x)

theorem getPendingOperations_of_wf {st : DBState} (h : queueWF st = true) :
    getPendingOperations st = st.pendingOperations := by
  unfold getPendingOperations
  exact sortByTimestamp_of_pairwise st.pendingOperations
    ((queueWF_pairwise h).imp fun hab => hab.1)

/-! ## Drain-loop lemmas -/

theorem drainLoop_frame (env : RemoteEnv) (l : List PendingOperation)
    (st : DBState) (r : SyncResult) :
    (drainLoop env l st r).1.items = st.items ∧
    (drainLoop env l st r).1.transactions = st.transactions ∧
    (drainLoop env l st r).1.settings = st.settings ∧
    (drainLoop env l st r).1.clock = st.clock ∧
    (drainLoop env l st r).1.uuidCounter = st.uuidCounter := by
  induction l generalizing st r with
  | nil => exact ⟨rfl, rfl, rfl, rfl, rfl⟩
  | cons op rest ih =>
      by_cases h : env.pushOk op = true
      · simpa [drainLoop, h, removePendingOperation] using ih _ _
      · simpa [drainLoop, h] using ih _ _

theorem drainLoop_events (env : RemoteEnv) (l : List PendingOperation)
    (st : DBState) (r : SyncResult) :
    (drainLoop env l st r).2.2 = l.map SyncEvent.push := by
  induction l generalizing st r with
  | nil => rfl
  | cons op rest ih =>
      by_cases h : env.pushOk op = true
      · simp [drainLoop, h, ih]
      · simp [drainLoop, h, ih]

theorem drainLoop_pending (env : RemoteEnv) (l : List PendingOperation)
    (st : DBState) (r : SyncResult) :
    (drainLoop env l st r).1.pendingOperations =
      st.pendingOperations.filter fun op => ! succeededIn env l op := by
  induction l generalizing st r with
  | nil =>
      simp [drainLoop, succeededIn]
  | cons x rest ih =>
      by_cases h : env.pushOk x = true
      · have step : (drainLoop env (x :: rest) st r).1.pendingOperations =
            (removePendingOperation st x.id).pendingOperations.filter
              (fun op => ! succeededIn env rest op) := by
          simp [drainLoop, h, ih]
        rw [step]
        show ((deleteByKey PendingOperation.id st.pendingOperations x.id).filter
            (fun op => ! succeededIn env rest op)) = _
        rw [deleteByKey_eq_filter, List.filter_filter]
        apply List.filter_congr
        intro op _
        by_cases hid : x.id = op.id
        · simp [succeededIn, hid, h]
        · have hid' : ¬ op.id = x.id := fun hh => hid hh.symm
          simp [succeededIn, hid, hid']
      · have step : (drainLoop env (x :: rest) st r).1.pendingOperations =
            st.pendingOperations.filter (fun op => ! succeededIn env rest op) := by
          simp [drainLoop, h, ih]
        rw [step]
        apply List.filter_congr
        intro op _
        simp [succeededIn, h]

theorem drainLoop_result (env : RemoteEnv) (l : List PendingOperation)
    (st : DBState) (r : SyncResult) :
    (drainLoop env l st r).2.1 = {
      success := r.success,
      synced := r.synced + (l.filter env.pushOk).length,
      failed := r.failed + (l.filter fun op => ! env.pushOk op).length,
      errors := r.errors ++ (l.filter fun op => ! env.pushOk op).map pushErrorMsg } := by
  induction l generalizing st r with
  | nil => simp [drainLoop]
  | cons x rest ih =>
      by_cases h : env.pushOk x = true
      · simp [drainLoop, h, ih, Nat.add_assoc, Nat.add_comm 1]
      · simp [drainLoop, h, ih, Nat.add_assoc, Nat.add_comm 1]

/-! ## Pull and cycle decomposition lemmas -/

theorem pullLatestData_frame (env : RemoteEnv) (st : DBState) :
    (pullLatestData env st).1.pendingOperations = st.pendingOperations ∧
    (pullLatestData env st).1.settings = st.settings ∧
    (pullLatestData env st).1.clock = st.clock ∧
    (pullLatestData env st).1.uuidCounter = st.uuidCounter := by
  cases hi : env.itemsPull <;> cases ht : env.txPull <;>
    simp [pullLatestData, pullTxPhase, hi, ht, bulkSaveItems, bulkSaveTransactions]

theorem pullLatestData_events_not_push (env : RemoteEnv) (st : DBState) :
    ∀ e ∈ (pullLatestData env st).2, e.isPush = false := by
  cases hi : env.itemsPull <;> cases ht : env.txPull <;>
    simp [pullLatestData, pullTxPhase, hi, ht, SyncEvent.isPush]

/-- Online cycle decomposition of the event trace: the drain pushes form
a prefix, in drain order; everything after them is not a push. -/
theorem syncEvents_decomp (env : RemoteEnv) (st : DBState) (h : env.online = true) :
    ∃ tail, syncEvents env st = (getPendingOperations st).map SyncEvent.push ++ tail ∧
      ∀ e ∈ tail, e.isPush = false := by
  unfold syncEvents performSync
  simp only [h, if_true]
  refine ⟨(pullLatestData env (drainLoop env (getPendingOperations st) st
      { success := true, synced := 0, failed := 0, errors := [] }).1).2 ++
      [SyncEvent.saveLastSync], ?_, ?_⟩
  · rw [drainLoop_events, List.append_assoc]
  · intro e he
    rcases List.mem_append.mp he with he | he
    · exact pullLatestData_events_not_push env _ e he
    · rcases List.mem_singleton.mp he with rfl
      rfl

theorem performSyncState_pending (env : RemoteEnv) (st : DBState)
    (h : env.online = true) :
    (performSyncState env st).pendingOperations =
      st.pendingOperations.filter
        fun op => ! succeededIn env (getPendingOperations st) op := by
  unfold performSyncState performSync
  have hpull := pullLatestData_frame env (drainLoop env (getPendingOperations st) st
    { success := true, synced := 0, failed := 0, errors := [] }).1
  simp only [h, if_true, saveSettingsLastSync]
  rw [hpull.1, drainLoop_pending]

theorem performSyncState_settings (env : RemoteEnv) (st : DBState)
    (h : env.online = true) :
    (performSyncState env st).settings =
      some { getSettings st with lastSyncAt := some st.clock } := by
  unfold performSyncState performSync
  have hdrain := drainLoop_frame env (getPendingOperations st) st
    { success := true, synced := 0, failed := 0, errors := [] }
  have hpull := pullLatestData_frame env (drainLoop env (getPendingOperations st) st
    { success := true, synced := 0, failed := 0, errors := [] }).1
  simp only [h, if_true, saveSettingsLastSync, getSettings]
  rw [hpull.2.1, hpull.2.2.1, hdrain.2.2.1, hdrain.2.2.2.1]

theorem performSyncResult_eq (env : RemoteEnv) (st : DBState)
    (h : env.online = true) :
    performSyncResult env st = {
      success := ((getPendingOperations st).filter
        fun op => ! env.pushOk op).length == 0,
      synced := ((getPendingOperations st).filter env.pushOk).length,
      failed := ((getPendingOperations st).filter fun op => ! env.pushOk op).length,
      errors := ((getPendingOperations st).filter
        fun op => ! env.pushOk op).map pushErrorMsg } := by
  unfold performSyncResult performSync
  simp only [h, if_true]
  simp [drainLoop_result]

/-- On members of a queue with pairwise-distinct ids, `succeededIn`
collapses to the operation's own push outcome. -/
theorem succeededIn_eq_pushOk (env : RemoteEnv) (l : List PendingOperation)
    (hnd : List.Pairwise (fun a b => ¬ a.id = b.id) l)
    (op : PendingOperation) (hop : op ∈ l) :
    succeededIn env l op = env.pushOk op := by
  induction l with
  | nil => cases hop
  | cons x rest ih =>
      rw [List.pairwise_cons] at hnd
      rcases List.mem_cons.mp hop with rfl | hop'
      · have hrest : succeededIn env rest op = false := by
          unfold succeededIn
          rw [List.any_eq_false]
          intro y hy
          have : ¬ y.id = op.id := fun hh => (hnd.1 y hy) hh.symm
          simp [this]
        cases hpush : env.pushOk op with
        | true => simp [succeededIn, hpush, List.any_cons]
        | false =>
            simp only [succeededIn, List.any_cons, hpush, Bool.and_false, Bool.false_or]
            simpa [succeededIn] using hrest
      · have hx : ¬ x.id = op.id := by
          intro hh
          exact absurd hh (by
            have := hnd.1 op hop'
            exact this)
        simp [succeededIn, List.any_cons, hx]
        exact ih hnd.2 hop'

/-! ## db.ts operation lemmas -/

theorem getByKey_key {α κ : Type} [DecidableEq κ] (key : α → κ)
    (l : List α) (k : κ) (v : α) (h : getByKey key l k = some v) :
    key v = k := by
  induction l with
  | nil => cases h
  | cons x xs ih =>
      by_cases hx : key x = k
      · rw [getByKey, if_pos hx] at h
        cases h
        exact hx
      · rw [getByKey, if_neg hx] at h
        exact ih h

theorem addPendingOperation_append (st : DBState) (op : PendingOperation)
    (h : ∀ o ∈ st.pendingOperations, ¬ o.id = op.id) :
    (addPendingOperation st op).pendingOperations = st.pendingOperations ++ [op] := by
  unfold addPendingOperation
  exact putByKey_of_fresh PendingOperation.id st.pendingOperations op h

/-- Field-by-field effect of `saveItem` with `addToPending = true`
(the default used by `saveTransaction`): the item is upserted with a
fresh `updatedAt` and `syncStatus 'pending'`; transactions and settings
are untouched; one clock tick for the put timestamp and one for the
queue entry's timestamp; one uuid drawn. -/
theorem saveItem_fields (st : DBState) (item : DonationItem) :
    (saveItem st item true).items =
      putByKey DonationItem.id st.items
        ({ item with updatedAt := st.clock, syncStatus := SyncStatus.pending }) ∧
    (saveItem st item true).transactions = st.transactions ∧
    (saveItem st item true).settings = st.settings ∧
    (saveItem st item true).clock = st.clock + 2 ∧
    (saveItem st item true).uuidCounter = st.uuidCounter + 1 :=
  ⟨rfl, rfl, rfl, rfl, rfl⟩

/-- Queue effect of `saveItem` with `addToPending = true`: exactly one
operation is appended, of kind `update` iff the item already existed,
carrying the argument item as payload. -/
theorem saveItem_pending (st : DBState) (item : DonationItem)
    (hfresh : ∀ o ∈ st.pendingOperations, o.id < st.uuidCounter) :
    (saveItem st item true).pendingOperations = st.pendingOperations ++
      [{ id := st.uuidCounter,
         type := if (getByKey DonationItem.id st.items item.id).isSome
           then OpType.update else OpType.create,
         entity := OpEntity.item, data := OpData.item item,
         timestamp := st.clock + 1, retryCount := 0 }] :=
  addPendingOperation_append _ _ (fun o ho => Nat.ne_of_lt (hfresh o ho))
/-- Unfolding lemma for `saveTransaction` (the lookup inside the call
reads the same items store as the pre-state, so the scrutinee is stated
over `st`). -/
theorem saveTransaction_def (st : DBState) (t : Transaction) :
    saveTransaction st t =
      (let st1 : DBState := { st with
        transactions := putByKey Transaction.id st.transactions
          ({ t with syncStatus := SyncStatus.pending }) }
      let st2 : DBState :=
        match getItemById st t.itemId with
        | some item =>
            saveItem st1
              ({ item with quantity := max 0 (if t.type = TransactionType.tin
                then item.quantity + t.quantity else item.quantity - t.quantity) }) true
        | none => st1
      addPendingOperation
        { st2 with clock := st2.clock + 1, uuidCounter := st2.uuidCounter + 1 }
        { id := st2.uuidCounter, type := OpType.create, entity := OpEntity.transaction,
          data := OpData.transaction t, timestamp := st2.clock, retryCount := 0 }) := rfl

theorem getItemById_addPendingOperation (s : DBState) (c u : Nat)
    (op : PendingOperation) (x : String) :
    getItemById (addPendingOperation { s with clock := c, uuidCounter := u } op) x =
      getItemById s x := rfl

theorem getItemById_saveItem (s : DBState) (i : DonationItem) (x : String) :
    getItemById (saveItem s i true) x =
      getByKey DonationItem.id
        (putByKey DonationItem.id s.items
          ({ i with updatedAt := s.clock, syncStatus := SyncStatus.pending })) x := rfl

/-- Explicit final state of `saveTransaction` when the referenced item
is missing: the transaction is upserted, the items store untouched, and
a single `create`/`transaction` queue entry is put. -/
theorem saveTransaction_missing_eq (st : DBState) (t : Transaction)
    (hmiss : getItemById st t.itemId = none) :
    saveTransaction st t = {
      items := st.items,
      transactions := putByKey Transaction.id st.transactions
        ({ t with syncStatus := SyncStatus.pending }),
      pendingOperations := putByKey PendingOperation.id st.pendingOperations
        { id := st.uuidCounter, type := OpType.create, entity := OpEntity.transaction,
          data := OpData.transaction t, timestamp := st.clock, retryCount := 0 },
      settings := st.settings,
      clock := st.clock + 1,
      uuidCounter := st.uuidCounter + 1 } := by
  simp only [saveTransaction_def, hmiss]
  rfl

/-- Explicit final state of `saveTransaction` when the referenced item
exists: the transaction is upserted, the item is upserted with the
recomputed zero-clamped quantity, and two queue entries are put — the
item operation (with the recomputed item as payload), then the
transaction `create`. -/
theorem saveTransaction_found_eq (st : DBState) (t : Transaction)
    (item : DonationItem) (hfound : getItemById st t.itemId = some item) :
    saveTransaction st t = {
      items := putByKey DonationItem.id st.items
        ({ item with
            quantity := max 0 (if t.type = TransactionType.tin
              then item.quantity + t.quantity else item.quantity - t.quantity),
            updatedAt := st.clock, syncStatus := SyncStatus.pending }),
      transactions := putByKey Transaction.id st.transactions
        ({ t with syncStatus := SyncStatus.pending }),
      pendingOperations := putByKey PendingOperation.id
        (putByKey PendingOperation.id st.pendingOperations
          { id := st.uuidCounter,
            type := if (getByKey DonationItem.id st.items item.id).isSome
              then OpType.update else OpType.create,
            entity := OpEntity.item,
            data := OpData.item ({ item with
              quantity := max 0 (if t.type = TransactionType.tin
                then item.quantity + t.quantity else item.quantity - t.quantity) }),
            timestamp := st.clock + 1, retryCount := 0 })
        { id := st.uuidCounter + 1, type := OpType.create, entity := OpEntity.transaction,
          data := OpData.transaction t, timestamp := st.clock + 2, retryCount := 0 },
      settings := st.settings,
      clock := st.clock + 3,
      uuidCounter := st.uuidCounter + 2 } := by
  simp only [saveTransaction_def, hfound]
  rfl

/-! ## Further store lemmas -/

theorem getByKey_deleteByKey {α κ : Type} [DecidableEq κ] (key : α → κ)
    (l : List α) (k : κ) :
    getByKey key (deleteByKey key l k) k = none := by
  induction l with
  | nil => rfl
  | cons x xs ih =>
      by_cases h : key x = k
      · simp [deleteByKey, h, ih]
      · simp [deleteByKey, getByKey, h, ih]

theorem deleteItem_missing_eq (st : DBState) (id : String)
    (hmiss : getByKey DonationItem.id st.items id = none) :
    deleteItem st id = st := by
  unfold deleteItem
  simp only [hmiss]

theorem deleteItem_found_eq (st : DBState) (id : String) (item : DonationItem)
    (hfound : getByKey DonationItem.id st.items id = some item) :
    deleteItem st id = {
      items := deleteByKey DonationItem.id st.items id,
      transactions := st.transactions,
      pendingOperations := putByKey PendingOperation.id st.pendingOperations
        { id := st.uuidCounter, type := OpType.delete, entity := OpEntity.item,
          data := OpData.item item, timestamp := st.clock, retryCount := 0 },
      settings := st.settings,
      clock := st.clock + 1,
      uuidCounter := st.uuidCounter + 1 } := by
  unfold deleteItem
  simp only [hfound]
  rfl

/-- One `saveTransaction` step on a found item: the stored quantity
moves by `clampStep` when the pre-state quantity and the transaction
quantity are non-negative (as the data model requires). -/
theorem saveTransaction_quantity_step (st : DBState) (t : Transaction)
    (item : DonationItem) (hfound : getItemById st t.itemId = some item)
    (h0 : 0 ≤ item.quantity) (hq : 0 ≤ t.quantity) :
    getItemById (saveTransaction st t) t.itemId = some ({ item with
      quantity := clampStep item.quantity t,
      updatedAt := st.clock, syncStatus := SyncStatus.pending }) := by
  have heq := saveTransaction_found_eq st t item hfound
  have hid : item.id = t.itemId :=
    getByKey_key DonationItem.id st.items t.itemId item hfound
  have hclamp : max 0 (if t.type = TransactionType.tin
      then item.quantity + t.quantity else item.quantity - t.quantity)
      = clampStep item.quantity t := by
    cases htype : t.type with
    | tin =>
        simp only [clampStep, htype, if_pos rfl]
        exact max_eq_right (add_nonneg h0 hq)
    | tout =>
        simp [clampStep, htype]
  rw [heq]
  show getByKey DonationItem.id (putByKey DonationItem.id st.items ({ item with
      quantity := max 0 (if t.type = TransactionType.tin
        then item.quantity + t.quantity else item.quantity - t.quantity),
      updatedAt := st.clock, syncStatus := SyncStatus.pending })) t.itemId = _
  rw [hclamp]
  rw [show t.itemId = DonationItem.id ({ item with
      quantity := clampStep item.quantity t,
      updatedAt := st.clock, syncStatus := SyncStatus.pending }) from hid.symm]
  exact getByKey_putByKey_self DonationItem.id st.items _

/-! ## Claims -/

/-- **C1.** For every item stored at quantity `q0 = item.quantity` and
every sequence of transactions referencing it applied through
`saveTransaction`, each `in` of quantity `q` increases the stored
quantity by `q` and each `out` of quantity `q` sets it to
`max(0, current - q)`; the final quantity is the running clamp
`foldl clampStep q0 txs` (clamped after each step, not only at the
end) and is never negative. -/
theorem saveTransaction_quantity_invariant (st : DBState)
    (item : DonationItem) (txs : List Transaction)
    (hfound : getItemById st item.id = some item)
    (hall : ∀ t ∈ txs, t.itemId = item.id)
    (hq : ∀ t ∈ txs, 0 ≤ t.quantity)
    (h0 : 0 ≤ item.quantity) :
    ∃ item', getItemById (txs.foldl saveTransaction st) item.id = some item' ∧
      item'.quantity = txs.foldl clampStep item.quantity ∧
      0 ≤ item'.quantity := by
  induction txs generalizing st item with
  | nil => exact ⟨item, hfound, rfl, h0⟩
  | cons t rest ih =>
      have hid : t.itemId = item.id := hall t (List.mem_cons_self t rest)
      have hfound' : getItemById st t.itemId = some item := by
        rw [hid]
        exact hfound
      have hstep := saveTransaction_quantity_step st t item hfound' h0
        (hq t (List.mem_cons_self t rest))
      have hstep' : getItemById (saveTransaction st t) item.id = some ({ item with
          quantity := clampStep item.quantity t,
          updatedAt := st.clock, syncStatus := SyncStatus.pending }) := by
        rw [hid] at hstep
        exact hstep
      have hnn : 0 ≤ clampStep item.quantity t := by
        cases htype : t.type with
        | tin =>
            have hqt := hq t (List.mem_cons_self t rest)
            simp only [clampStep, htype]
            exact add_nonneg h0 hqt
        | tout =>
            simp only [clampStep, htype]
            exact le_max_left 0 _
      obtain ⟨item', hmem, hquant, hnn'⟩ := ih (saveTransaction st t)
        ({ item with
            quantity := clampStep item.quantity t,
            updatedAt := st.clock, syncStatus := SyncStatus.pending })
        hstep' (fun t' ht' => hall t' (List.mem_cons_of_mem t ht'))
        (fun t' ht' => hq t' (List.mem_cons_of_mem t ht')) hnn
      exact ⟨item', hmem, hquant, hnn'⟩

theorem saveTransaction_quantity_invariant_witness :
    (getItemById stW itemW.id = some itemW ∧
      (∀ t ∈ [txOut5, txOut20, txIn7], t.itemId = itemW.id) ∧
      (∀ t ∈ [txOut5, txOut20, txIn7], 0 ≤ t.quantity) ∧
      0 ≤ itemW.quantity) ∧
    (∃ item', getItemById ([txOut5, txOut20, txIn7].foldl saveTransaction stW)
        itemW.id = some item' ∧
      item'.quantity = [txOut5, txOut20, txIn7].foldl clampStep itemW.quantity ∧
      0 ≤ item'.quantity) :=
  ⟨⟨by decide, by decide, by decide, by decide⟩,
    saveTransaction_quantity_invariant stW itemW [txOut5, txOut20, txIn7]
      (by decide) (by decide) (by decide) (by decide)⟩

/-- **C2.** `saveTransaction` on a transaction whose `itemId` matches no
stored item succeeds (the operation is total — the missing item is a
no-op, not an error): the transaction record is persisted with
`syncStatus 'pending'`, a `create` PendingOperation for the transaction
is still enqueued, and no item record is created or modified. -/
theorem saveTransaction_missing_item_noop (st : DBState) (t : Transaction)
    (hmiss : getItemById st t.itemId = none)
    (hfresh : ∀ o ∈ st.pendingOperations, o.id < st.uuidCounter) :
    (saveTransaction st t).items = st.items ∧
    getTransactionById (saveTransaction st t) t.id =
      some ({ t with syncStatus := SyncStatus.pending }) ∧
    ∃ op, (saveTransaction st t).pendingOperations = st.pendingOperations ++ [op] ∧
      op.type = OpType.create ∧ op.entity = OpEntity.transaction ∧
      op.data = OpData.transaction t := by
  have heq := saveTransaction_missing_eq st t hmiss
  refine ⟨?_, ?_, ?_⟩
  · rw [heq]
  · rw [heq]
    show getByKey Transaction.id (putByKey Transaction.id st.transactions
      ({ t with syncStatus := SyncStatus.pending })) t.id = _
    rw [show t.id = Transaction.id ({ t with syncStatus := SyncStatus.pending })
      from rfl]
    exact getByKey_putByKey_self Transaction.id st.transactions _
  · refine ⟨⟨st.uuidCounter, OpType.create, OpEntity.transaction,
        OpData.transaction t, st.clock, 0⟩, ?_, rfl, rfl, rfl⟩
    rw [heq]
    show putByKey PendingOperation.id st.pendingOperations _ = _
    exact putByKey_of_fresh PendingOperation.id st.pendingOperations _
      (fun o ho => Nat.ne_of_lt (hfresh o ho))

theorem saveTransaction_missing_item_noop_witness :
    (getItemById stW txGhost.itemId = none ∧
      (∀ o ∈ stW.pendingOperations, o.id < stW.uuidCounter)) ∧
    ((saveTransaction stW txGhost).items = stW.items ∧
      getTransactionById (saveTransaction stW txGhost) txGhost.id =
        some ({ txGhost with syncStatus := SyncStatus.pending }) ∧
      ∃ op, (saveTransaction stW txGhost).pendingOperations =
          stW.pendingOperations ++ [op] ∧
        op.type = OpType.create ∧ op.entity = OpEntity.transaction ∧
        op.data = OpData.transaction txGhost) :=
  ⟨⟨by decide, by decide⟩,
    saveTransaction_missing_item_noop stW txGhost (by decide) (by decide)⟩

/-- **C9.** A successful `saveTransaction` whose `itemId` matches an
existing item appends exactly two PendingOperations, in order: first an
`update` for the item carrying the recomputed (clamped) quantity — the
item is re-persisted through `saveItem` with `addToPending` defaulted
to `true` — then a `create` for the transaction; when the item does not
exist, exactly one PendingOperation (the transaction `create`) is
appended. -/
theorem saveTransaction_enqueues_in_order (st : DBState) (t : Transaction)
    (hfresh : ∀ o ∈ st.pendingOperations, o.id < st.uuidCounter) :
    (∀ item, getItemById st t.itemId = some item →
      ∃ opU opC, (saveTransaction st t).pendingOperations
          = st.pendingOperations ++ [opU, opC] ∧
        opU.type = OpType.update ∧ opU.entity = OpEntity.item ∧
        opU.data = OpData.item ({ item with
          quantity := max 0 (if t.type = TransactionType.tin
            then item.quantity + t.quantity else item.quantity - t.quantity) }) ∧
        opC.type = OpType.create ∧ opC.entity = OpEntity.transaction ∧
        opC.data = OpData.transaction t ∧
        opU.timestamp < opC.timestamp) ∧
    (getItemById st t.itemId = none →
      ∃ opC, (saveTransaction st t).pendingOperations
          = st.pendingOperations ++ [opC] ∧
        opC.type = OpType.create ∧ opC.entity = OpEntity.transaction ∧
        opC.data = OpData.transaction t) := by
  constructor
  · intro item hfound
    have heq := saveTransaction_found_eq st t item hfound
    have hid : item.id = t.itemId :=
      getByKey_key DonationItem.id st.items t.itemId item hfound
    have hsome : getByKey DonationItem.id st.items item.id = some item := by
      rw [hid]
      exact hfound
    refine ⟨⟨st.uuidCounter, OpType.update, OpEntity.item,
        OpData.item ({ item with
          quantity := max 0 (if t.type = TransactionType.tin
            then item.quantity + t.quantity else item.quantity - t.quantity) }),
        st.clock + 1, 0⟩,
      ⟨st.uuidCounter + 1, OpType.create, OpEntity.transaction,
        OpData.transaction t, st.clock + 2, 0⟩,
      ?_, rfl, rfl, rfl, rfl, rfl, rfl, Nat.lt_succ_self _⟩
    rw [heq]
    show putByKey PendingOperation.id (putByKey PendingOperation.id
      st.pendingOperations _) _ = _
    rw [hsome]
    rw [putByKey_of_fresh PendingOperation.id st.pendingOperations _
      (fun o ho => Nat.ne_of_lt (hfresh o ho))]
    rw [putByKey_of_fresh PendingOperation.id _ _ ?_]
    · simp
    · intro o ho
      rcases List.mem_append.mp ho with ho | ho
      · exact Nat.ne_of_lt (Nat.lt_succ_of_lt (hfresh o ho))
      · rcases List.mem_singleton.mp ho with rfl
        show ¬ st.uuidCounter = st.uuidCounter + 1
        omega
  · intro hmiss
    have heq := saveTransaction_missing_eq st t hmiss
    refine ⟨⟨st.uuidCounter, OpType.create, OpEntity.transaction,
        OpData.transaction t, st.clock, 0⟩, ?_, rfl, rfl, rfl⟩
    rw [heq]
    show putByKey PendingOperation.id st.pendingOperations _ = _
    exact putByKey_of_fresh PendingOperation.id st.pendingOperations _
      (fun o ho => Nat.ne_of_lt (hfresh o ho))

theorem saveTransaction_enqueues_in_order_witness :
    ((∀ o ∈ stW.pendingOperations, o.id < stW.uuidCounter) ∧
      getItemById stW txOut5.itemId = some itemW) ∧
    (∃ opU opC, (saveTransaction stW txOut5).pendingOperations
        = stW.pendingOperations ++ [opU, opC] ∧
      opU.type = OpType.update ∧ opU.entity = OpEntity.item ∧
      opU.data = OpData.item ({ itemW with
        quantity := max 0 (if txOut5.type = TransactionType.tin
          then itemW.quantity + txOut5.quantity
          else itemW.quantity - txOut5.quantity) }) ∧
      opC.type = OpType.create ∧ opC.entity = OpEntity.transaction ∧
      opC.data = OpData.transaction txOut5 ∧
      opU.timestamp < opC.timestamp) :=
  ⟨⟨by decide, by decide⟩,
    (saveTransaction_enqueues_in_order stW txOut5 (by decide)).1 itemW (by decide)⟩

/-- **C10.** `deleteItem` with an id matching no stored item is a
complete no-op (the returned state is the input state); when the item
exists, the item record is removed and exactly one `delete`
PendingOperation carrying the pre-delete snapshot of the item is
enqueued, with every other collection untouched. -/
theorem deleteItem_spec (st : DBState) (id : String)
    (hfresh : ∀ o ∈ st.pendingOperations, o.id < st.uuidCounter) :
    (getByKey DonationItem.id st.items id = none → deleteItem st id = st) ∧
    (∀ item, getByKey DonationItem.id st.items id = some item →
      getItemById (deleteItem st id) id = none ∧
      (deleteItem st id).items =
        deleteByKey DonationItem.id st.items id ∧
      (deleteItem st id).transactions = st.transactions ∧
      (deleteItem st id).settings = st.settings ∧
      ∃ op, (deleteItem st id).pendingOperations = st.pendingOperations ++ [op] ∧
        op.type = OpType.delete ∧ op.entity = OpEntity.item ∧
        op.data = OpData.item item) := by
  constructor
  · exact deleteItem_missing_eq st id
  · intro item hfound
    have heq := deleteItem_found_eq st id item hfound
    refine ⟨?_, ?_, ?_, ?_, ?_⟩
    · rw [heq]
      show getByKey DonationItem.id (deleteByKey DonationItem.id st.items id) id
        = none
      exact getByKey_deleteByKey DonationItem.id st.items id
    · rw [heq]
    · rw [heq]
    · rw [heq]
    · refine ⟨⟨st.uuidCounter, OpType.delete, OpEntity.item,
          OpData.item item, st.clock, 0⟩, ?_, rfl, rfl, rfl⟩
      rw [heq]
      show putByKey PendingOperation.id st.pendingOperations _ = _
      exact putByKey_of_fresh PendingOperation.id st.pendingOperations _
        (fun o ho => Nat.ne_of_lt (hfresh o ho))

theorem deleteItem_spec_witness :
    ((∀ o ∈ stW.pendingOperations, o.id < stW.uuidCounter) ∧
      getByKey DonationItem.id stW.items "item-1" = some itemW ∧
      getByKey DonationItem.id stW.items "ghost" = none) ∧
    deleteItem stW "ghost" = stW ∧
    (getItemById (deleteItem stW "item-1") "item-1" = none ∧
      (deleteItem stW "item-1").items =
        deleteByKey DonationItem.id stW.items "item-1" ∧
      (deleteItem stW "item-1").transactions = stW.transactions ∧
      (deleteItem stW "item-1").settings = stW.settings ∧
      ∃ op, (deleteItem stW "item-1").pendingOperations =
          stW.pendingOperations ++ [op] ∧
        op.type = OpType.delete ∧ op.entity = OpEntity.item ∧
        op.data = OpData.item itemW) :=
  ⟨⟨by decide, by decide, by decide⟩,
    (deleteItem_spec stW "ghost" (by decide)).1 (by decide),
    (deleteItem_spec stW "item-1" (by decide)).2 itemW (by decide)⟩

/-! ## Sync-cycle helper lemmas -/

theorem filter_isPush_map_push (l : List PendingOperation) :
    (l.map SyncEvent.push).filter SyncEvent.isPush = l.map SyncEvent.push := by
  induction l with
  | nil => rfl
  | cons x xs ih => simp [SyncEvent.isPush, ih]

theorem syncEvents_filter_push (env : RemoteEnv) (st : DBState)
    (honline : env.online = true) :
    (syncEvents env st).filter SyncEvent.isPush =
      (getPendingOperations st).map SyncEvent.push := by
  rcases syncEvents_decomp env st honline with ⟨tail, hdec, htail⟩
  have htail0 : tail.filter SyncEvent.isPush = [] :=
    List.filter_eq_nil_iff.mpr (fun e he => by simp [htail e he])
  rw [hdec, List.filter_append, filter_isPush_map_push, htail0, List.append_nil]

theorem syncEvents_offline (env : RemoteEnv) (st : DBState)
    (hoff : env.online = false) : syncEvents env st = [] := by
  simp [syncEvents, performSync, hoff]

/-- **C3.** Draining reads the queue in `by-timestamp` order: under the
queue invariant this is exactly the stored enqueue order, the returned
sequence is ascending in creation timestamp, and the cycle's remote
requests attempt the operations in exactly that order — regardless of
which pushes the remote later rejects (`env.pushOk` is arbitrary). -/
theorem drain_and_replay_order (env : RemoteEnv) (st : DBState)
    (hwf : queueWF st = true) (honline : env.online = true) :
    getPendingOperations st = st.pendingOperations ∧
    List.Pairwise (fun a b => a.timestamp < b.timestamp) (getPendingOperations st) ∧
    (syncEvents env st).filter SyncEvent.isPush =
      (getPendingOperations st).map SyncEvent.push := by
  have h1 := getPendingOperations_of_wf hwf
  refine ⟨h1, ?_, syncEvents_filter_push env st honline⟩
  rw [h1]
  exact (queueWF_pairwise hwf).imp (fun h => h.1)

theorem drain_and_replay_order_witness :
    (queueWF stQ3 = true ∧ envMidFail.online = true) ∧
    (getPendingOperations stQ3 = stQ3.pendingOperations ∧
      List.Pairwise (fun a b => a.timestamp < b.timestamp)
        (getPendingOperations stQ3) ∧
      (syncEvents envMidFail stQ3).filter SyncEvent.isPush =
        (getPendingOperations stQ3).map SyncEvent.push) :=
  ⟨⟨by decide, rfl⟩, drain_and_replay_order envMidFail stQ3 (by decide) rfl⟩

/-- **C4.** Partial-failure isolation: after an online cycle, exactly
the operations whose push the remote rejected remain queued (every
successful one was removed), and every queued operation was attempted
in the cycle — a failed entry does not stop the rest of the drain. -/
theorem partial_failure_isolation (env : RemoteEnv) (st : DBState)
    (hwf : queueWF st = true) (honline : env.online = true) :
    (performSyncState env st).pendingOperations =
      st.pendingOperations.filter (fun op => ! env.pushOk op) ∧
    (syncEvents env st).filter SyncEvent.isPush =
      st.pendingOperations.map SyncEvent.push := by
  constructor
  · rw [performSyncState_pending env st honline]
    apply List.filter_congr
    intro op hop
    rw [getPendingOperations_of_wf hwf,
      succeededIn_eq_pushOk env st.pendingOperations
        ((queueWF_pairwise hwf).imp (fun h => h.2)) op hop]
  · rw [syncEvents_filter_push env st honline, getPendingOperations_of_wf hwf]

theorem partial_failure_isolation_witness :
    (queueWF stQ3 = true ∧ envMidFail.online = true) ∧
    ((performSyncState envMidFail stQ3).pendingOperations =
        stQ3.pendingOperations.filter (fun op => ! envMidFail.pushOk op) ∧
      (syncEvents envMidFail stQ3).filter SyncEvent.isPush =
        stQ3.pendingOperations.map SyncEvent.push) ∧
    (performSyncState envMidFail stQ3).pendingOperations = [opW1] :=
  ⟨⟨by decide, rfl⟩, partial_failure_isolation envMidFail stQ3 (by decide) rfl,
    by decide⟩

/-- **C5.** Within one `performSync` call every drain attempt (push)
occurs strictly before every pull fetch: if position `i` of the cycle's
event trace is a push and position `j` is a pull, then `i < j`. -/
theorem drain_before_pull (env : RemoteEnv) (st : DBState) (i j : Nat)
    (hi : i < (syncEvents env st).length) (hj : j < (syncEvents env st).length)
    (hpush : ((syncEvents env st).get ⟨i, hi⟩).isPush = true)
    (hpull : ((syncEvents env st).get ⟨j, hj⟩).isPull = true) :
    i < j := by
  by_cases honline : env.online = true
  · rcases syncEvents_decomp env st honline with ⟨tail, hdec, htail⟩
    rw [List.get_eq_getElem] at hpush hpull
    simp only [hdec] at hpush hpull hi hj
    have hi' : i < ((getPendingOperations st).map SyncEvent.push).length := by
      by_contra hge
      push_neg at hge
      rw [List.getElem_append_right hge] at hpush
      rw [htail _ (List.getElem_mem _)] at hpush
      exact Bool.false_ne_true hpush
    have hj' : ((getPendingOperations st).map SyncEvent.push).length ≤ j := by
      by_contra hlt
      push_neg at hlt
      rw [List.getElem_append_left hlt] at hpull
      simp only [List.getElem_map] at hpull
      simp [SyncEvent.isPull] at hpull
    omega
  · have hoff : env.online = false := by
      revert honline
      cases env.online
      · intro _
        rfl
      · intro hc
        exact absurd rfl hc
    rw [syncEvents_offline env st hoff] at hi
    exact absurd hi (by simp)

theorem drain_before_pull_witness :
    (((syncEvents envMidFail stQ3).get ⟨0, by decide⟩).isPush = true ∧
      ((syncEvents envMidFail stQ3).get ⟨3, by decide⟩).isPull = true) ∧
    (0 : Nat) < 3 :=
  ⟨⟨by decide, by decide⟩,
    drain_before_pull envMidFail stQ3 0 3 (by decide) (by decide)
      (by decide) (by decide)⟩

/-- **C6 (counterexample).** Concrete cycle: the only queued operation
(`retryCount = 0`) fails to replay; after the cycle it is still queued
with `retryCount = 0`, and no stored entry has had its retry counter
incremented to 1 — refuting the claim that the stored `retryCount` is
incremented on replay failure (no code in the repository ever updates
the field). -/
theorem retryCount_not_incremented :
    opW.retryCount = 0 ∧ envAllFail.pushOk opW = false ∧
    (performSyncState envAllFail stQ).pendingOperations = [opW] ∧
    ¬ ∃ op, op ∈ (performSyncState envAllFail stQ).pendingOperations ∧
        op.retryCount = opW.retryCount + 1 := by decide

/-- **C6 (amended).** When replaying a PendingOperation fails (non-2xx
or network error), the entry is left queued *unchanged*: the identical
record — same stored `retryCount` — is still in the queue after the
cycle.  (The `retryCount` field is written as 0 at enqueue time and
never incremented anywhere.) -/
theorem failed_entry_left_queued_unchanged (env : RemoteEnv) (st : DBState)
    (op : PendingOperation) (hwf : queueWF st = true)
    (honline : env.online = true)
    (hop : op ∈ st.pendingOperations) (hfail : env.pushOk op = false) :
    op ∈ (performSyncState env st).pendingOperations := by
  rw [performSyncState_pending env st honline]
  rw [List.mem_filter]
  refine ⟨hop, ?_⟩
  rw [getPendingOperations_of_wf hwf,
    succeededIn_eq_pushOk env st.pendingOperations
      ((queueWF_pairwise hwf).imp (fun h => h.2)) op hop, hfail]
  rfl

theorem failed_entry_left_queued_unchanged_witness :
    (queueWF stQ = true ∧ envAllFail.online = true ∧
      opW ∈ stQ.pendingOperations ∧ envAllFail.pushOk opW = false) ∧
    opW ∈ (performSyncState envAllFail stQ).pendingOperations :=
  ⟨⟨by decide, rfl, by decide, rfl⟩,
    failed_entry_left_queued_unchanged envAllFail stQ opW (by decide) rfl
      (by decide) rfl⟩

/-- **C7 (counterexample).** Concrete cycle with the remote totally
unavailable (every push fails, the pull fetch rejects): the cycle does
*not* abort at draining's first request — the pull stage is still
attempted after the failed push, the reconcile stage still runs, and
local data is changed (`lastSyncAt` is written into settings) —
refuting "no later stage of the cycle runs" and "local data is
unchanged apart from the operations remaining queued". -/
theorem unavailability_does_not_abort :
    syncEvents envAllFail stQ =
      [SyncEvent.push opW, SyncEvent.pullItems, SyncEvent.saveLastSync] ∧
    stQ.settings = none ∧
    ¬ (performSyncState envAllFail stQ).settings = none := by decide

/-- **C7 (amended).** When the Remote Authority is totally unavailable
the cycle does not abort: every queued operation is attempted and
fails, the pull stage is still attempted (its failure is swallowed),
and the reconcile stage still updates `lastSyncAt`.  A non-fatal error
result is surfaced (`success = false` whenever anything was queued,
with one error per entry); items and transactions are unchanged and
every operation remains queued. -/
theorem total_unavailability_cycle (env : RemoteEnv) (st : DBState)
    (hwf : queueWF st = true) (honline : env.online = true)
    (hfail : ∀ op, env.pushOk op = false)
    (hitems : env.itemsPull = FetchResult.netErr) :
    (performSyncState env st).items = st.items ∧
    (performSyncState env st).transactions = st.transactions ∧
    (performSyncState env st).pendingOperations = st.pendingOperations ∧
    (performSyncState env st).settings =
      some ({ getSettings st with lastSyncAt := some st.clock }) ∧
    (performSyncResult env st).synced = 0 ∧
    (performSyncResult env st).failed = st.pendingOperations.length ∧
    (performSyncResult env st).errors = st.pendingOperations.map pushErrorMsg ∧
    (performSyncResult env st).success = (st.pendingOperations.length == 0) ∧
    syncEvents env st =
      st.pendingOperations.map SyncEvent.push ++
        [SyncEvent.pullItems, SyncEvent.saveLastSync] := by
  have hpull : ∀ X, pullLatestData env X = (X, [SyncEvent.pullItems]) := by
    intro X
    simp [pullLatestData, hitems]
  have hstate : performSyncState env st =
      saveSettingsLastSync (drainLoop env (getPendingOperations st) st
        { success := true, synced := 0, failed := 0, errors := [] }).1 := by
    unfold performSyncState performSync
    simp only [honline, if_true, hpull]
  have hfailfilter : (getPendingOperations st).filter
      (fun op => ! env.pushOk op) = getPendingOperations st :=
    List.filter_eq_self.mpr (fun op _ => by simp [hfail op])
  have hokfilter : (getPendingOperations st).filter env.pushOk = [] :=
    List.filter_eq_nil_iff.mpr (fun op _ => by simp [hfail op])
  refine ⟨?_, ?_, ?_, performSyncState_settings env st honline, ?_, ?_, ?_, ?_, ?_⟩
  · rw [hstate]
    exact (drainLoop_frame env (getPendingOperations st) st _).1
  · rw [hstate]
    exact (drainLoop_frame env (getPendingOperations st) st _).2.1
  · rw [performSyncState_pending env st honline]
    refine List.filter_eq_self.mpr (fun op _ => ?_)
    have hnone : succeededIn env (getPendingOperations st) op = false := by
      unfold succeededIn
      rw [List.any_eq_false]
      intro x _
      simp [hfail x]
    simp [hnone]
  · rw [performSyncResult_eq env st honline]
    simp [hokfilter]
  · rw [performSyncResult_eq env st honline]
    simp only [hfailfilter]
    rw [getPendingOperations_of_wf hwf]
  · rw [performSyncResult_eq env st honline]
    simp only [hfailfilter]
    rw [getPendingOperations_of_wf hwf]
  · rw [performSyncResult_eq env st honline]
    simp only [hfailfilter]
    rw [getPendingOperations_of_wf hwf]
  · unfold syncEvents performSync
    simp only [honline, if_true, hpull, drainLoop_events]
    rw [getPendingOperations_of_wf hwf]
    simp

theorem total_unavailability_cycle_witness :
    (queueWF stQ = true ∧ envAllFail.online = true ∧
      envAllFail.itemsPull = FetchResult.netErr) ∧
    ((performSyncState envAllFail stQ).items = stQ.items ∧
      (performSyncState envAllFail stQ).transactions = stQ.transactions ∧
      (performSyncState envAllFail stQ).pendingOperations = stQ.pendingOperations ∧
      (performSyncState envAllFail stQ).settings =
        some ({ getSettings stQ with lastSyncAt := some stQ.clock }) ∧
      (performSyncResult envAllFail stQ).synced = 0 ∧
      (performSyncResult envAllFail stQ).failed = stQ.pendingOperations.length ∧
      (performSyncResult envAllFail stQ).errors =
        stQ.pendingOperations.map pushErrorMsg ∧
      (performSyncResult envAllFail stQ).success =
        (stQ.pendingOperations.length == 0) ∧
      syncEvents envAllFail stQ =
        stQ.pendingOperations.map SyncEvent.push ++
          [SyncEvent.pullItems, SyncEvent.saveLastSync]) :=
  ⟨⟨by decide, rfl, rfl⟩,
    total_unavailability_cycle envAllFail stQ (by decide) rfl (fun _ => rfl) rfl⟩

/-- **C8.** Replaying the same transaction operation twice against the
Remote Authority produces no duplicate entity and does not apply the
quantity change a second time.  Per-operation path
(`POST /api/transactions` → `createTransaction`): the first replay
returns 201 and stores one row; the second hits the `transactions.id`
primary key, the whole D1 batch (insert + quantity `UPDATE`) rolls back
and 500 is returned, leaving the transactions table and the item
quantities exactly as after the first replay (a single row for the
id).  Bulk path (`POST /api/sync` → `syncData`): a transaction whose id
already exists is skipped entirely, so no row and no quantity change is
applied. -/
theorem replay_idempotent (db : RemoteDB) (body : TxBody)
    (hfresh : ∀ tr ∈ db.transactions, ¬ tr.id = body.id) :
    (createTransaction db body).2 = 201 ∧
    (createTransaction (createTransaction db body).1 body).2 = 500 ∧
    (createTransaction (createTransaction db body).1 body).1.transactions =
      (createTransaction db body).1.transactions ∧
    (createTransaction (createTransaction db body).1 body).1.items =
      (createTransaction db body).1.items ∧
    ((createTransaction db body).1.transactions.filter
        (fun tr => decide (tr.id = body.id))).length = 1 ∧
    (∀ stx : SyncTxBody, stx.id = body.id →
      syncDataTransactions (createTransaction db body).1 [stx] =
        ((createTransaction db body).1, 0)) := by
  have hany : (db.transactions.any fun tr => decide (tr.id = body.id)) = false := by
    rw [List.any_eq_false]
    intro tr htr
    simpa using hfresh tr htr
  have hc1 : createTransaction db body = ({ db with
      transactions := db.transactions ++
        [{ id := body.id, itemId := body.itemId, type := body.type,
           quantity := body.quantity, reason := body.reason,
           recipientInfo := body.recipientInfo, performedBy := body.performedBy,
           performedAt := body.performedAt.getD db.clock, notes := body.notes,
           organizationId := some (body.organizationId.getD "default") }],
      items := updateItemQuantity body.type body.quantity db.clock
        db.items body.itemId,
      clock := db.clock + 1 }, 201) := by
    unfold createTransaction
    simp [hany]
  have hany2 : ((createTransaction db body).1.transactions.any
      fun tr => decide (tr.id = body.id)) = true := by
    rw [hc1]
    simp
  have hgen : ∀ d : RemoteDB,
      (d.transactions.any fun tr => decide (tr.id = body.id)) = true →
      createTransaction d body = ({ d with clock := d.clock + 1 }, 500) := by
    intro d hd
    unfold createTransaction
    rw [hd]
    rfl
  have hc2 : createTransaction (createTransaction db body).1 body =
      ({ (createTransaction db body).1 with
        clock := (createTransaction db body).1.clock + 1 }, 500) :=
    hgen (createTransaction db body).1 hany2
  refine ⟨?_, ?_, ?_, ?_, ?_, ?_⟩
  · rw [hc1]
  · rw [hc2]
  · rw [hc2]
  · rw [hc2]
  · rw [hc1]
    have hnil : (db.transactions.filter fun tr => decide (tr.id = body.id)) = [] :=
      List.filter_eq_nil_iff.mpr (fun tr htr => by simpa using hfresh tr htr)
    simp [List.filter_append, hnil]
  · intro stx hstx
    have hany3 : ((createTransaction db body).1.transactions.any
        fun tr => decide (tr.id = stx.id)) = true := by
      rw [hstx]
      exact hany2
    unfold syncDataTransactions
    simp [hany3, syncDataTransactions]

theorem replay_idempotent_witness :
    (createTransaction dbW bodyW).2 = 201 ∧
    (createTransaction (createTransaction dbW bodyW).1 bodyW).2 = 500 ∧
    (createTransaction (createTransaction dbW bodyW).1 bodyW).1.transactions =
      (createTransaction dbW bodyW).1.transactions ∧
    (createTransaction (createTransaction dbW bodyW).1 bodyW).1.items =
      (createTransaction dbW bodyW).1.items ∧
    ((createTransaction dbW bodyW).1.transactions.filter
        (fun tr => decide (tr.id = bodyW.id))).length = 1 ∧
    syncDataTransactions (createTransaction dbW bodyW).1 [stxW] =
      ((createTransaction dbW bodyW).1, 0) := by
  have h := replay_idempotent dbW bodyW (by decide)
  exact ⟨h.1, h.2.1, h.2.2.1, h.2.2.2.1, h.2.2.2.2.1,
    h.2.2.2.2.2 stxW (by decide)⟩

end Heartbox
